import Mathlib

/-!
Verification of the MiniVSFS image tools (`mkfs_builder.c` and `mkfs_adder.c`).

The image buffer is modelled as a byte-addressed memory `Nat → Nat` (each
address holding a byte value), mirroring the single contiguous in-memory
buffer both programs operate on.  All multi-byte fields are little-endian,
matching the packed C structs.  The CRC-32 routine is embedded exactly as the
C code computes it: the table entry `CRC32_TAB[i]` is the result of eight
rounds of the polynomial step on `i`, and the running update folds
`c = TAB[(c ^ byte) & 0xFF] ^ (c >> 8)` over the bytes, with initial value and
final mask `0xFFFFFFFF`.
-/

set_option maxRecDepth 400000
set_option maxHeartbeats 1000000

/-- Little-endian byte `k` of the value `v` (byte 0 is least significant). -/
def leByte (v k : Nat) : Nat := (v >>> (8 * k)) % 256

/-- The all-zero memory, modelling a freshly `calloc`ed buffer. -/
def zeroMem : Nat → Nat := fun _ => 0

/-- Overwrite `len` bytes of memory `m` starting at `off` with the bytes of
`g` (indexed from 0), modelling a `memcpy` into the buffer. -/
def writeSeg (m : Nat → Nat) (off len : Nat) (g : Nat → Nat) : Nat → Nat :=
  fun j => if off ≤ j ∧ j < off + len then g (j - off) else m j

/-- Read a `w`-byte little-endian unsigned integer at offset `off`. -/
def readLE (f : Nat → Nat) : Nat → Nat → Nat
  | _, 0 => 0
  | off, w + 1 => f off + 256 * readLE f (off + 1) w

/-- One round of the CRC-32 table generator: the inner loop body of
`crc32_init` (`c = (c&1) ? (0xEDB88320 ^ (c>>1)) : (c>>1)`). -/
def crcTabStep (c : Nat) : Nat :=
  if c % 2 = 1 then 0xEDB88320 ^^^ (c >>> 1) else c >>> 1

/-- Iterate the table-generator round. -/
def crcTabRounds : Nat → Nat → Nat
  | 0, c => c
  | n + 1, c => crcTabRounds n (crcTabStep c)

/-- Entry `i` of `CRC32_TAB`, as filled by `crc32_init` (eight rounds). -/
def CRC32_TAB (i : Nat) : Nat := crcTabRounds 8 i

/-- One byte of CRC-32 update: `c = CRC32_TAB[(c ^ p[i]) & 0xFF] ^ (c >> 8)`. -/
def crc32step (c b : Nat) : Nat := CRC32_TAB ((c ^^^ b) % 256) ^^^ (c >>> 8)

/-- Fold the CRC-32 update over `len` bytes of `f` starting at `off`.  The
match on the updated accumulator is the identity on both branches; it only
forces the running value to a numeral at each iteration, as the C loop's
machine-word variable `c` is, so that the fold evaluates in constant depth
(see `crc32go_succ` for the plain recurrence). -/
def crc32go (f : Nat → Nat) : Nat → Nat → Nat → Nat
  | c, _, 0 => c
  | c, off, len + 1 =>
    match crc32step c (f off), off + 1 with
    | 0, 0 => crc32go f 0 0 len
    | 0, o + 1 => crc32go f 0 (o + 1) len
    | c1 + 1, 0 => crc32go f (c1 + 1) 0 len
    | c1 + 1, o + 1 => crc32go f (c1 + 1) (o + 1) len

/-- The plain recurrence of the CRC fold, exactly the C loop body. -/
theorem crc32go_succ (f : Nat → Nat) (c off len : Nat) :
    crc32go f c off (len + 1) = crc32go f (crc32step c (f off)) (off + 1) len := by
  simp only [crc32go]
  cases h1 : crc32step c (f off) <;> cases h2 : off + 1 <;> rfl

/-- The function `crc32(p, len)` of the C sources over the bytes `f off .. f (off+len-1)`:
initial value `0xFFFFFFFF`, final xor `0xFFFFFFFF`. -/
def crc32fn (f : Nat → Nat) (off len : Nat) : Nat :=
  crc32go f 0xFFFFFFFF off len ^^^ 0xFFFFFFFF

/-- Running 8-bit xor (`uint8_t x ^= p[i]`) over `len` bytes from `off`. -/
def direntXorGo (m : Nat → Nat) : Nat → Nat → Nat → Nat
  | x, _, 0 => x
  | x, off, n + 1 => direntXorGo m ((x ^^^ m off) % 256) (off + 1) n

/-- The directory-entry checksum of both tools: xor of the first 63 bytes of
the 64-byte record found at offset `off`. -/
def direntXorAt (m : Nat → Nat) (off : Nat) : Nat := direntXorGo m 0 off 63

/-- Zero the 4-byte superblock checksum field (offsets 112..115). -/
def maskSbCk (m : Nat → Nat) : Nat → Nat :=
  fun j => if 112 ≤ j ∧ j < 116 then 0 else m j

/-- Zero the 8-byte inode checksum field (offsets 120..127). -/
def maskInodeCrc (m : Nat → Nat) : Nat → Nat :=
  fun j => if 120 ≤ j ∧ j < 128 then 0 else m j

/-- The builder's `superblock_crc_finalize` checksum value: CRC-32 over
`BS - 4 = 4092` bytes starting at the superblock struct with the checksum
field zeroed.  Since the struct is only 116 bytes, bytes 116..4091 of `m` are
whatever memory follows the struct. -/
def builderSbCrcOf (m : Nat → Nat) : Nat := crc32fn (maskSbCk m) 0 4092

/-- The adder's `superblock_crc_finalize` checksum value: CRC-32 over
`sizeof(superblock_t) = 116` bytes with the checksum field zeroed. -/
def adderSbCrcOf (m : Nat → Nat) : Nat := crc32fn (maskSbCk m) 0 116

/-- The builder's `inode_crc_finalize` value: the 128-byte record is copied,
bytes 120..127 are zeroed, and the CRC-32 of the first 120 bytes is taken. -/
def builderInodeCrcOf (m : Nat → Nat) : Nat := crc32fn (maskInodeCrc m) 0 120

/-- The adder's `inode_crc_finalize` value: the checksum field is zeroed and
the CRC-32 of all `sizeof(inode_t) = 128` bytes is taken. -/
def adderInodeCrcOf (m : Nat → Nat) : Nat := crc32fn (maskInodeCrc m) 0 128

/-- The builder's `inode_crc_finalize` as a memory transformer: store the
CRC value into the 8-byte field at 120 (low 32 bits carry the CRC). -/
def builderInodeFinalize (m : Nat → Nat) : Nat → Nat :=
  fun j => if 120 ≤ j ∧ j < 128 then leByte (builderInodeCrcOf m) (j - 120) else m j

/-- The adder's `inode_crc_finalize` as a memory transformer. -/
def adderInodeFinalize (m : Nat → Nat) : Nat → Nat :=
  fun j => if 120 ≤ j ∧ j < 128 then leByte (adderInodeCrcOf m) (j - 120) else m j

/-- The routine `dirent_checksum_finalize` as a memory transformer on a 64-byte record:
store the xor of the first 63 bytes into byte 63. -/
def direntFinalize (m : Nat → Nat) : Nat → Nat :=
  fun j => if j = 63 then direntXorAt m 0 else m j

-- ======================= basic lemmas about the primitives =======================

theorem xor_lt_pow2 {x y n : Nat} (hx : x < 2 ^ n) (hy : y < 2 ^ n) :
    x ^^^ y < 2 ^ n :=
  Nat.bitwise_lt hx hy

theorem crcTabStep_lt {c : Nat} (hc : c < 2 ^ 32) : crcTabStep c < 2 ^ 32 := by
  unfold crcTabStep
  have h1 : c >>> 1 < 2 ^ 32 := by
    rw [Nat.shiftRight_eq_div_pow]
    omega
  split
  · exact xor_lt_pow2 (by norm_num) h1
  · exact h1

theorem crcTabRounds_lt {c : Nat} (hc : c < 2 ^ 32) :
    ∀ n, crcTabRounds n c < 2 ^ 32 := by
  intro n
  induction n generalizing c with
  | zero => simpa [crcTabRounds] using hc
  | succ k ih => simpa [crcTabRounds] using ih (crcTabStep_lt hc)

theorem CRC32_TAB_lt {i : Nat} (h : i < 2 ^ 32) : CRC32_TAB i < 2 ^ 32 := by
  unfold CRC32_TAB
  exact crcTabRounds_lt h 8

theorem crc32step_lt {c b : Nat} (hc : c < 2 ^ 32) : crc32step c b < 2 ^ 32 := by
  unfold crc32step
  have h1 : c >>> 8 < 2 ^ 32 := by
    rw [Nat.shiftRight_eq_div_pow]
    omega
  exact xor_lt_pow2 (CRC32_TAB_lt (by omega)) h1

theorem crc32go_lt {f : Nat → Nat} :
    ∀ len c off, c < 2 ^ 32 → crc32go f c off len < 2 ^ 32 := by
  intro len
  induction len with
  | zero => intro c off hc; simpa [crc32go] using hc
  | succ k ih =>
    intro c off hc
    rw [crc32go_succ]
    exact ih (crc32step c (f off)) (off + 1) (crc32step_lt hc)

theorem crc32fn_lt (f : Nat → Nat) (off len : Nat) : crc32fn f off len < 2 ^ 32 := by
  unfold crc32fn
  exact xor_lt_pow2 (crc32go_lt len 0xFFFFFFFF off (by norm_num)) (by norm_num)

/-- The CRC fold only reads the bytes in `[off, off + len)`. -/
theorem crc32go_congr {f g : Nat → Nat} :
    ∀ len c off, (∀ j, off ≤ j → j < off + len → f j = g j) →
      crc32go f c off len = crc32go g c off len := by
  intro len
  induction len with
  | zero => intro c off _; rfl
  | succ k ih =>
    intro c off h
    rw [crc32go_succ, crc32go_succ, h off (Nat.le_refl off) (by omega)]
    exact ih _ (off + 1) (fun j h1 h2 => h j (by omega) (by omega))

theorem crc32fn_congr {f g : Nat → Nat} {off len : Nat}
    (h : ∀ j, off ≤ j → j < off + len → f j = g j) :
    crc32fn f off len = crc32fn g off len := by
  unfold crc32fn
  rw [crc32go_congr len 0xFFFFFFFF off h]

/-- Reading through a shifted memory shifts the CRC fold's window. -/
theorem crc32go_shift {f : Nat → Nat} {a : Nat} :
    ∀ len c off, crc32go (fun t => f (a + t)) c off len = crc32go f c (a + off) len := by
  intro len
  induction len with
  | zero => intro c off; rfl
  | succ k ih =>
    intro c off
    rw [crc32go_succ, crc32go_succ, ih]
    have : a + (off + 1) = a + off + 1 := by omega
    rw [this]

theorem crc32fn_shift {f : Nat → Nat} {a off len : Nat} :
    crc32fn (fun t => f (a + t)) off len = crc32fn f (a + off) len := by
  unfold crc32fn
  rw [crc32go_shift]

theorem direntXorGo_lt {m : Nat → Nat} :
    ∀ n x off, x < 256 → direntXorGo m x off n < 256 := by
  intro n
  induction n with
  | zero => intro x off hx; simpa [direntXorGo] using hx
  | succ k ih =>
    intro x off hx
    simpa [direntXorGo] using ih ((x ^^^ m off) % 256) (off + 1) (by omega)

theorem direntXorAt_lt (m : Nat → Nat) (off : Nat) : direntXorAt m off < 256 :=
  direntXorGo_lt 63 0 off (by norm_num)

theorem direntXorGo_congr {f g : Nat → Nat} :
    ∀ n x off, (∀ j, off ≤ j → j < off + n → f j = g j) →
      direntXorGo f x off n = direntXorGo g x off n := by
  intro n
  induction n with
  | zero => intro x off _; rfl
  | succ k ih =>
    intro x off h
    simp only [direntXorGo]
    rw [h off (Nat.le_refl off) (by omega)]
    exact ih _ (off + 1) (fun j h1 h2 => h j (by omega) (by omega))

theorem direntXorGo_shift {f : Nat → Nat} {a : Nat} :
    ∀ n x off, direntXorGo (fun t => f (a + t)) x off n = direntXorGo f x (a + off) n := by
  intro n
  induction n with
  | zero => intro x off; rfl
  | succ k ih =>
    intro x off
    simp only [direntXorGo]
    rw [ih]
    have : a + (off + 1) = a + off + 1 := by omega
    rw [this]

/-- Reassemble a little-endian field: if `w` consecutive bytes at `off` are
the little-endian bytes of `v` and `v` fits in `w` bytes, reading the field
returns `v`. -/
theorem readLE_eq : ∀ (w : Nat) (f : Nat → Nat) (off v : Nat),
    v < 256 ^ w → (∀ k, k < w → f (off + k) = leByte v k) →
    readLE f off w = v := by
  intro w
  induction w with
  | zero => intro f off v hv _; simpa [readLE] using (by omega : v = 0).symm
  | succ u ih =>
    intro f off v hv h
    have h0 : f off = v % 256 := by
      have := h 0 (by omega)
      simpa [leByte] using this
    have hrec : readLE f (off + 1) u = v / 256 := by
      apply ih
      · have hp : (256 : Nat) ^ (u + 1) = 256 * 256 ^ u := by ring
        rw [hp] at hv
        omega
      · intro k hk
        have := h (k + 1) (by omega)
        have harg : off + 1 + k = off + (k + 1) := by omega
        rw [harg, this]
        unfold leByte
        rw [Nat.shiftRight_eq_div_pow, Nat.shiftRight_eq_div_pow]
        have : 8 * (k + 1) = 8 + 8 * k := by ring
        rw [this, pow_add]
        rw [Nat.div_div_eq_div_mul]
        norm_num
    simp only [readLE]
    rw [h0, hrec]
    omega

/-- Bytes 4..7 of a value below `2^32` are zero. -/
theorem leByte_high_zero {v k : Nat} (hv : v < 2 ^ 32) (hk : 4 ≤ k) :
    leByte v k = 0 := by
  unfold leByte
  rw [Nat.shiftRight_eq_div_pow]
  have : 2 ^ 32 ≤ 2 ^ (8 * k) := Nat.pow_le_pow_right (by norm_num) (by omega)
  have : v / 2 ^ (8 * k) = 0 := Nat.div_eq_of_lt (by omega)
  rw [this]

-- ======================= on-disk structures =======================

/-- The packed `superblock_t` (116 bytes, little-endian fields). -/
structure Superblock where
  magic : Nat
  version : Nat
  blockSize : Nat
  totalBlocks : Nat
  inodeCount : Nat
  ibmStart : Nat
  ibmBlocks : Nat
  dbmStart : Nat
  dbmBlocks : Nat
  itStart : Nat
  itBlocks : Nat
  drStart : Nat
  drBlocks : Nat
  rootInode : Nat
  mtimeEpoch : Nat
  flags : Nat
  checksum : Nat

/-- Byte `j` of the packed superblock (field offsets from the struct layout:
magic@0/4, version@4/4, block_size@8/4, total_blocks@12/8, inode_count@20/8,
inode_bitmap_start@28/8, inode_bitmap_blocks@36/8, data_bitmap_start@44/8,
data_bitmap_blocks@52/8, inode_table_start@60/8, inode_table_blocks@68/8,
data_region_start@76/8, data_region_blocks@84/8, root_inode@92/8,
mtime_epoch@100/8, flags@108/4, checksum@112/4). -/
def sbByte (sb : Superblock) (j : Nat) : Nat :=
  if j < 4 then leByte sb.magic j
  else if j < 8 then leByte sb.version (j - 4)
  else if j < 12 then leByte sb.blockSize (j - 8)
  else if j < 20 then leByte sb.totalBlocks (j - 12)
  else if j < 28 then leByte sb.inodeCount (j - 20)
  else if j < 36 then leByte sb.ibmStart (j - 28)
  else if j < 44 then leByte sb.ibmBlocks (j - 36)
  else if j < 52 then leByte sb.dbmStart (j - 44)
  else if j < 60 then leByte sb.dbmBlocks (j - 52)
  else if j < 68 then leByte sb.itStart (j - 60)
  else if j < 76 then leByte sb.itBlocks (j - 68)
  else if j < 84 then leByte sb.drStart (j - 76)
  else if j < 92 then leByte sb.drBlocks (j - 84)
  else if j < 100 then leByte sb.rootInode (j - 92)
  else if j < 108 then leByte sb.mtimeEpoch (j - 100)
  else if j < 112 then leByte sb.flags (j - 108)
  else if j < 116 then leByte sb.checksum (j - 112)
  else 0

/-- The packed `inode_t` (128 bytes). -/
structure InodeRec where
  mode : Nat
  links : Nat
  uid : Nat
  gid : Nat
  sizeBytes : Nat
  atime : Nat
  mtime : Nat
  ctime : Nat
  direct : Nat → Nat
  reserved0 : Nat
  reserved1 : Nat
  reserved2 : Nat
  projId : Nat
  uidGid : Nat
  xattr : Nat
  crc : Nat

/-- Byte `j` of the packed inode (mode@0/2, links@2/2, uid@4/4, gid@8/4,
size_bytes@12/8, atime@20/8, mtime@28/8, ctime@36/8, direct[12]@44/48,
reserved_0@92/4, reserved_1@96/4, reserved_2@100/4, proj_id@104/4,
uid16_gid16@108/4, xattr_ptr@112/8, inode_crc@120/8). -/
def inodeByte (x : InodeRec) (j : Nat) : Nat :=
  if j < 2 then leByte x.mode j
  else if j < 4 then leByte x.links (j - 2)
  else if j < 8 then leByte x.uid (j - 4)
  else if j < 12 then leByte x.gid (j - 8)
  else if j < 20 then leByte x.sizeBytes (j - 12)
  else if j < 28 then leByte x.atime (j - 20)
  else if j < 36 then leByte x.mtime (j - 28)
  else if j < 44 then leByte x.ctime (j - 36)
  else if j < 92 then leByte (x.direct ((j - 44) / 4)) ((j - 44) % 4)
  else if j < 96 then leByte x.reserved0 (j - 92)
  else if j < 100 then leByte x.reserved1 (j - 96)
  else if j < 104 then leByte x.reserved2 (j - 100)
  else if j < 108 then leByte x.projId (j - 104)
  else if j < 112 then leByte x.uidGid (j - 108)
  else if j < 120 then leByte x.xattr (j - 112)
  else if j < 128 then leByte x.crc (j - 120)
  else 0

/-- The packed `dirent64_t` (64 bytes: inode_no@0/4, type@4/1, name@5/58,
checksum@63/1). -/
structure DirentRec where
  inodeNo : Nat
  typ : Nat
  name : Nat → Nat
  checksum : Nat

def direntByte (d : DirentRec) (j : Nat) : Nat :=
  if j < 4 then leByte d.inodeNo j
  else if j = 4 then d.typ % 256
  else if j < 63 then d.name (j - 5) % 256
  else if j = 63 then d.checksum % 256
  else 0

-- ======================= layout planner (mkfs_builder main) =======================

/-- The layout computed by `mkfs_builder` from the validated parameters
(`total_blocks = size_kib*1024/BS`,
`inode_table_blocks = (inode_count*INODE_SIZE + BS-1)/BS`, fixed starts
1/2/3, data region from `3 + inode_table_blocks` to the end). -/
structure Layout where
  totalBlocks : Nat
  inodeTableBlocks : Nat
  inodeBitmapStart : Nat
  dataBitmapStart : Nat
  inodeTableStart : Nat
  dataRegionStart : Nat
  dataRegionBlocks : Nat

def layoutOf (sizeKib inodeCount : Nat) : Layout :=
  { totalBlocks := sizeKib * 1024 / 4096
    inodeTableBlocks := (inodeCount * 128 + 4095) / 4096
    inodeBitmapStart := 1
    dataBitmapStart := 2
    inodeTableStart := 3
    dataRegionStart := 3 + (inodeCount * 128 + 4095) / 4096
    dataRegionBlocks := sizeKib * 1024 / 4096 - (3 + (inodeCount * 128 + 4095) / 4096) }

/-- The builder's layout guards: `total_blocks < 4` is "image too small",
`data_region_start >= total_blocks` is "invalid layout"; otherwise the layout
is accepted. -/
def plannedLayout (sizeKib inodeCount : Nat) : Option Layout :=
  if sizeKib * 1024 / 4096 < 4 then none
  else if (layoutOf sizeKib inodeCount).totalBlocks ≤
      (layoutOf sizeKib inodeCount).dataRegionStart then none
  else some (layoutOf sizeKib inodeCount)

@[simp] theorem layoutOf_ibmStart (s i : Nat) :
    (layoutOf s i).inodeBitmapStart = 1 := rfl
@[simp] theorem layoutOf_dbmStart (s i : Nat) :
    (layoutOf s i).dataBitmapStart = 2 := rfl
@[simp] theorem layoutOf_itStart (s i : Nat) :
    (layoutOf s i).inodeTableStart = 3 := rfl
@[simp] theorem layoutOf_totalBlocks (s i : Nat) :
    (layoutOf s i).totalBlocks = s * 1024 / 4096 := rfl
@[simp] theorem layoutOf_itb (s i : Nat) :
    (layoutOf s i).inodeTableBlocks = (i * 128 + 4095) / 4096 := rfl
@[simp] theorem layoutOf_drs (s i : Nat) :
    (layoutOf s i).dataRegionStart = 3 + (i * 128 + 4095) / 4096 := rfl
@[simp] theorem layoutOf_drb (s i : Nat) :
    (layoutOf s i).dataRegionBlocks =
      s * 1024 / 4096 - (3 + (i * 128 + 4095) / 4096) := rfl

-- ======================= image initializer (mkfs_builder main) =======================

/-- The root inode as `mkfs_builder` fills it before checksumming: directory
mode (octal 0040000 = 16384), two links, size = two directory entries,
`direct[0]` = first data-region block, project id 14, timestamps `now`. -/
def buildRoot0 (s i now : Nat) : InodeRec :=
  { mode := 16384
    links := 2
    uid := 0
    gid := 0
    sizeBytes := 2 * 64
    atime := now
    mtime := now
    ctime := now
    direct := fun k => if k = 0 then (layoutOf s i).dataRegionStart % 2 ^ 32 else 0
    reserved0 := 0
    reserved1 := 0
    reserved2 := 0
    projId := 14
    uidGid := 0
    xattr := 0
    crc := 0 }

/-- The root inode after `inode_crc_finalize`. -/
def buildRoot (s i now : Nat) : InodeRec :=
  { buildRoot0 s i now with crc := builderInodeCrcOf (inodeByte (buildRoot0 s i now)) }

/-- The "." entry before checksumming (inode 1, type dir, name "."). -/
def dotRec0 : DirentRec :=
  { inodeNo := 1, typ := 2, name := fun k => if k = 0 then 46 else 0, checksum := 0 }

/-- The "." entry after `dirent_checksum_finalize`. -/
def dotRec : DirentRec :=
  { dotRec0 with checksum := direntXorAt (direntByte dotRec0) 0 }

/-- The ".." entry before checksumming (inode 1, type dir, name ".."). -/
def dotdotRec0 : DirentRec :=
  { inodeNo := 1, typ := 2, name := fun k => if k < 2 then 46 else 0, checksum := 0 }

/-- The ".." entry after `dirent_checksum_finalize`. -/
def dotdotRec : DirentRec :=
  { dotdotRec0 with checksum := direntXorAt (direntByte dotdotRec0) 0 }

/-- The superblock as `mkfs_builder` fills it, checksum still zero. -/
def buildSb0 (s i now : Nat) : Superblock :=
  { magic := 0x4D565346
    version := 1
    blockSize := 4096
    totalBlocks := (layoutOf s i).totalBlocks
    inodeCount := i
    ibmStart := 1
    ibmBlocks := 1
    dbmStart := 2
    dbmBlocks := 1
    itStart := 3
    itBlocks := (layoutOf s i).inodeTableBlocks
    drStart := (layoutOf s i).dataRegionStart
    drBlocks := (layoutOf s i).dataRegionBlocks
    rootInode := 1
    mtimeEpoch := now
    flags := 0
    checksum := 0 }

/-- The checksum stored by the builder's `superblock_crc_finalize`: CRC-32
over `BS - 4 = 4092` bytes starting at the 116-byte stack struct, i.e. the
struct's bytes followed by 3976 bytes (`rest`) of whatever memory happens to
sit after the struct. -/
def buildSbCk (s i now : Nat) (rest : Nat → Nat) : Nat :=
  crc32fn (fun t => if t < 116 then sbByte (buildSb0 s i now) t else rest (t - 116)) 0 4092

/-- The finalized superblock. -/
def buildSb (s i now : Nat) (rest : Nat → Nat) : Superblock :=
  { buildSb0 s i now with checksum := buildSbCk s i now rest }

/-- The complete image `mkfs_builder` emits, as a byte memory, assembled in
file-write order over a zeroed base: block 0 the zero-padded superblock,
block 1 the inode bitmap (only bit 0 set), block 2 the data bitmap (only
bit 0 set), blocks 3.. the inode table (root inode in slot 0, the rest of the
`calloc`ed table zero, zero padding up to a block boundary), and the data
region whose first block holds the "." and ".." entries. -/
def buildImage (s i now : Nat) (rest : Nat → Nat) : Nat → Nat :=
  writeSeg
    (writeSeg
      (writeSeg
        (writeSeg
          (writeSeg zeroMem 0 116 (sbByte (buildSb s i now rest)))
          4096 4096 (fun t => if t = 0 then 1 else 0))
        8192 4096 (fun t => if t = 0 then 1 else 0))
      12288 (i * 128) (fun t => if t < 128 then inodeByte (buildRoot s i now) t else 0))
    ((layoutOf s i).dataRegionStart * 4096) ((layoutOf s i).dataRegionBlocks * 4096)
    (fun t =>
      if t < 64 then direntByte dotRec t
      else if t < 128 then direntByte dotdotRec (t - 64)
      else 0)

/-- Total number of bytes the builder writes to the image file:
three metadata blocks, the (padded) inode table, and the data region. -/
def buildSize (s i : Nat) : Nat :=
  3 * 4096 + (layoutOf s i).inodeTableBlocks * 4096 + (layoutOf s i).dataRegionBlocks * 4096

-- ======================= bitmap allocator (shared helpers) =======================

/-- The test `bitmap_test(bm, idx)`: bit `idx` (LSB-first within each byte) of the
bitmap starting at byte offset `base`. -/
def bitTest (m : Nat → Nat) (base idx : Nat) : Bool :=
  ((m (base + idx / 8)) >>> (idx % 8)) % 2 == 1

/-- The update `bitmap_set(bm, idx)`: or the bit into its byte. -/
def bitSet (m : Nat → Nat) (base idx : Nat) : Nat → Nat :=
  fun j => if j = base + idx / 8 then m j ||| (1 <<< (idx % 8)) else m j

/-- The scan loop of `bitmap_ffz`: try bits `i, i+1, ...` with `n` bits left. -/
def ffzGo (m : Nat → Nat) (base : Nat) : Nat → Nat → Option Nat
  | _, 0 => none
  | i, n + 1 => if bitTest m base i then ffzGo m base (i + 1) n else some i

/-- The scan `bitmap_ffz(bm, bits)`: first-fit scan from bit 0, `none` when every bit
in range is set. -/
def bitmapFfz (m : Nat → Nat) (base bits : Nat) : Option Nat := ffzGo m base 0 bits

theorem ffzGo_lt {m : Nat → Nat} {base : Nat} :
    ∀ n i k, ffzGo m base i n = some k → k < i + n := by
  intro n
  induction n with
  | zero => intro i k h; simp [ffzGo] at h
  | succ u ih =>
    intro i k h
    simp only [ffzGo] at h
    by_cases hb : bitTest m base i
    · rw [if_pos hb] at h
      have := ih (i + 1) k h
      omega
    · rw [if_neg hb] at h
      cases h
      omega

theorem bitmapFfz_lt {m : Nat → Nat} {base bits k : Nat}
    (h : bitmapFfz m base bits = some k) : k < bits := by
  have := ffzGo_lt bits 0 k h
  omega

-- ======================= entry inserter (mkfs_adder main) =======================

/-- Failure exits of `mkfs_adder` after the image is in memory, in program
order: bad magic/block-size, no free inode, inode index out of bounds, file
needs more than 12 blocks, no free data block, root inode without a first
data block, duplicate name in the root directory, root directory full. -/
inductive AddErr
  | formatMismatch
  | noFreeInode
  | inodeOOB
  | fileTooLarge
  | noFreeData
  | rootMissing
  | alreadyExists
  | dirFull
deriving DecidableEq, Repr

/-- Result of a run: on error, the error kind together with the in-memory
image buffer as it stands at the failing exit; on success the final buffer. -/
abbrev AddResult := Except (AddErr × (Nat → Nat)) (Nat → Nat)

/-- The data-block allocation loop: `blocks_needed` times, find the first
free bit of the data bitmap, set it, and record the absolute block number
`data_region_start + idx` (as `uint32_t`).  On exhaustion the error carries
the buffer with the bits allocated so far still set (the C code does not roll
them back). -/
def allocBlocks (dbmOff drStart drBlocks : Nat) :
    (Nat → Nat) → List Nat → Nat → Except (Nat → Nat) ((Nat → Nat) × List Nat)
  | m, acc, 0 => .ok (m, acc)
  | m, acc, n + 1 =>
    match bitmapFfz m dbmOff drBlocks with
    | none => .error m
    | some idx =>
      allocBlocks dbmOff drStart drBlocks (bitSet m dbmOff idx)
        (acc ++ [(drStart + idx) % 2 ^ 32]) n

/-- Model of `strncmp(mem+off, base, n) == 0` where `base` is the NUL-terminated C
string whose characters are the list `s`: bytes are compared pairwise,
stopping early at a NUL on either side. -/
def cstrEq (m : Nat → Nat) : Nat → List Nat → Nat → Bool
  | _, _, 0 => true
  | off, [], _ + 1 => m off == 0
  | off, b :: bs, n + 1 => m off == b && (b == 0 || cstrEq m (off + 1) bs n)

/-- The duplicate-check / free-slot scan over the 64 directory entries of the
root directory block at `dOff`: a non-free entry whose name equals the base
name aborts (AlreadyExists); otherwise the first free slot and the number of
used entries are returned. -/
def scanDir (m : Nat → Nat) (dOff : Nat) (base : List Nat) :
    Nat → Nat → Option Nat → Nat → Except Unit (Option Nat × Nat)
  | _, 0, slot, used => .ok (slot, used)
  | i, n + 1, slot, used =>
    if readLE m (dOff + 64 * i) 4 ≠ 0 then
      if cstrEq m (dOff + 64 * i + 5) base 58 then .error ()
      else scanDir m dOff base (i + 1) n slot (used + 1)
    else
      match slot with
      | none => scanDir m dOff base (i + 1) n (some i) used
      | some s => scanDir m dOff base (i + 1) n (some s) used

/-- The file-data copy loop: block `k` of the file buffer `fbuf` (of `fsz`
bytes) goes to absolute block `direct[k]`, the tail of the last block
zero-padded. -/
def writeFileBlocks (fsz : Nat) (fbuf : Nat → Nat) : (Nat → Nat) → List Nat → Nat → (Nat → Nat)
  | m, [], _ => m
  | m, b :: bs, k =>
    writeFileBlocks fsz fbuf
      (writeSeg m (b * 4096) 4096
        (fun t => if k * 4096 + t < fsz then fbuf (k * 4096 + t) else 0))
      bs (k + 1)

/-- The count `blocks_needed = (fsz + BS - 1) / BS`. -/
def blocksNeededFor (fsz : Nat) : Nat := (fsz + 4095) / 4096

/-- The whole of the in-memory mutation of `mkfs_adder`, after the image
`img` and the file (size `fsz`, byte buffer `fbuf`) are loaded and the base
name `base` extracted: validate the
superblock, find a free inode, check the 12-block ceiling, allocate data
blocks first-fit, locate the root directory block, scan it for duplicates and
a free slot, then write the new inode, bitmap bit, data blocks, directory
entry, updated root inode and updated superblock. -/
def runAdder (img : Nat → Nat) (fsz : Nat) (fbuf : Nat → Nat) (base : List Nat)
    (now : Nat) : AddResult :=
  if readLE img 8 4 ≠ 4096 ∨ readLE img 0 4 ≠ 0x4D565346 then
    .error (.formatMismatch, img)
  else
    match bitmapFfz img (readLE img 28 8 * 4096) (readLE img 20 8) with
    | none => .error (.noFreeInode, img)
    | some freeIn =>
      if readLE img 20 8 ≤ freeIn then .error (.inodeOOB, img)
      else if 12 < blocksNeededFor fsz then .error (.fileTooLarge, img)
      else
        match allocBlocks (readLE img 44 8 * 4096) (readLE img 76 8) (readLE img 84 8)
            img [] (blocksNeededFor fsz) with
        | .error m1 => .error (.noFreeData, m1)
        | .ok (m1, direct) =>
          if readLE m1 (readLE img 60 8 * 4096 + 44) 4 = 0 then
            .error (.rootMissing, m1)
          else
            match scanDir m1 (readLE m1 (readLE img 60 8 * 4096 + 44) 4 * 4096) base 0 64 none 0 with
            | .error _ => .error (.alreadyExists, m1)
            | .ok (none, _) => .error (.dirFull, m1)
            | .ok (some slot, used) =>
              let itOff := readLE img 60 8 * 4096
              let ino0 : InodeRec :=
                { mode := 32768
                  links := 1
                  uid := 0
                  gid := 0
                  sizeBytes := fsz
                  atime := now
                  mtime := now
                  ctime := now
                  direct := fun k => direct.getD k 0
                  reserved0 := 0
                  reserved1 := 0
                  reserved2 := 0
                  projId := 14
                  uidGid := 0
                  xattr := 0
                  crc := 0 }
              let ino : InodeRec := { ino0 with crc := adderInodeCrcOf (inodeByte ino0) }
              let m2 := writeSeg m1 (itOff + freeIn * 128) 128 (inodeByte ino)
              let m3 := bitSet m2 (readLE img 28 8 * 4096) freeIn
              let m4 := writeFileBlocks fsz fbuf m3 direct 0
              let de0 : DirentRec :=
                { inodeNo := (freeIn + 1) % 2 ^ 32
                  typ := 1
                  name := fun k => if k < 57 ∧ k < base.length then base.getD k 0 else 0
                  checksum := 0 }
              let de : DirentRec := { de0 with checksum := direntXorAt (direntByte de0) 0 }
              let dOff := readLE m1 (itOff + 44) 4 * 4096
              let m5 := writeSeg m4 (dOff + 64 * slot) 64 (direntByte de)
              let newLinks := (readLE m5 (itOff + 2) 2 + 1) % 65536
              let m6 := writeSeg (writeSeg m5 (itOff + 2) 2 (leByte newLinks))
                (itOff + 12) 8 (leByte ((used + 1) * 64))
              let m7 := writeSeg m6 (itOff + 120) 8
                (leByte (adderInodeCrcOf (fun t => m6 (itOff + t))))
              let m8 := writeSeg m7 100 8 (leByte now)
              let m9 := writeSeg m8 112 4 (leByte (adderSbCrcOf m8))
              .ok m9

/-- Process exit code of the adder run: 2 for the magic/block-size check
(`return 2` in the source), 1 for every other failure, 0 on success. -/
def exitCodeOf : AddResult → Nat
  | .ok _ => 0
  | .error (.formatMismatch, _) => 2
  | .error _ => 1

/-- The error kind of a run, if any. -/
def errKindOf : AddResult → Option AddErr
  | .ok _ => none
  | .error (e, _) => some e

/-- The image buffer a run ends with (on error, the buffer at the failing
exit; on success, the final image). -/
def bufOf : AddResult → (Nat → Nat)
  | .ok m => m
  | .error (_, m) => m

-- ======================= claims =======================

/-- C2: the builder's superblock checksum routine (CRC-32 over `BS - 4 =
4092` bytes) and the adder's (CRC-32 over the 116-byte struct) are not
bit-compatible: on the all-zero superblock contents the two routines store
the different values 1614480521 and 4024421810. -/
theorem c2_sb_checksum_conventions_diverge :
    builderSbCrcOf zeroMem = 1614480521
  ∧ adderSbCrcOf zeroMem = 4024421810
  ∧ (builderSbCrcOf zeroMem != adderSbCrcOf zeroMem) = true := by
  refine ⟨by decide, by decide, by decide⟩

/-- C3 counterexample: the adder's inode-checksum routine does not store the
CRC-32 of the inode's first 120 data bytes.  On the all-zero inode record it
stores `crc32` of all 128 zeroed bytes (3265854109), while the CRC-32 of the
first 120 bytes is 962427431. -/
theorem c3_cex :
    adderInodeCrcOf zeroMem = 3265854109
  ∧ crc32fn zeroMem 0 120 = 962427431
  ∧ (adderInodeCrcOf zeroMem != crc32fn zeroMem 0 120) = true := by
  refine ⟨by decide, by decide, by decide⟩

/-- C3 amended: the builder's inode-checksum routine stores the CRC-32 of the
inode's first 120 data bytes, while the adder's stores the CRC-32 of all 128
bytes with the 8-byte checksum field zeroed first; in both programs the
stored 64-bit field carries the CRC in its low 32 bits with the upper 32 bits
zero. -/
theorem c3_amended (m : Nat → Nat) :
    builderInodeCrcOf m = crc32fn m 0 120
  ∧ adderInodeCrcOf m = crc32fn (maskInodeCrc m) 0 128
  ∧ readLE (builderInodeFinalize m) 120 8 = crc32fn m 0 120
  ∧ readLE (adderInodeFinalize m) 120 8 = adderInodeCrcOf m
  ∧ builderInodeCrcOf m < 2 ^ 32
  ∧ adderInodeCrcOf m < 2 ^ 32
  ∧ builderInodeFinalize m 124 = 0 ∧ builderInodeFinalize m 125 = 0
  ∧ builderInodeFinalize m 126 = 0 ∧ builderInodeFinalize m 127 = 0
  ∧ adderInodeFinalize m 124 = 0 ∧ adderInodeFinalize m 125 = 0
  ∧ adderInodeFinalize m 126 = 0 ∧ adderInodeFinalize m 127 = 0 := by
  have h120 : builderInodeCrcOf m = crc32fn m 0 120 := by
    unfold builderInodeCrcOf
    apply crc32fn_congr
    intro j _ hj
    unfold maskInodeCrc
    rw [if_neg (by omega)]
  have hblt : builderInodeCrcOf m < 2 ^ 32 := crc32fn_lt _ 0 120
  have halt : adderInodeCrcOf m < 2 ^ 32 := crc32fn_lt _ 0 128
  have hbread : readLE (builderInodeFinalize m) 120 8 = builderInodeCrcOf m := by
    apply readLE_eq
    · calc builderInodeCrcOf m < 2 ^ 32 := hblt
        _ < 256 ^ 8 := by norm_num
    · intro k hk
      unfold builderInodeFinalize
      rw [if_pos (by omega)]
      congr 1
      omega
  have haread : readLE (adderInodeFinalize m) 120 8 = adderInodeCrcOf m := by
    apply readLE_eq
    · calc adderInodeCrcOf m < 2 ^ 32 := halt
        _ < 256 ^ 8 := by norm_num
    · intro k hk
      unfold adderInodeFinalize
      rw [if_pos (by omega)]
      congr 1
      omega
  have hbhigh : ∀ k, 4 ≤ k → k < 8 → builderInodeFinalize m (120 + k) = 0 := by
    intro k h4 h8
    unfold builderInodeFinalize
    rw [if_pos (by omega)]
    have : 120 + k - 120 = k := by omega
    rw [this]
    exact leByte_high_zero hblt h4
  have hahigh : ∀ k, 4 ≤ k → k < 8 → adderInodeFinalize m (120 + k) = 0 := by
    intro k h4 h8
    unfold adderInodeFinalize
    rw [if_pos (by omega)]
    have : 120 + k - 120 = k := by omega
    rw [this]
    exact leByte_high_zero halt h4
  refine ⟨h120, rfl, h120 ▸ hbread, haread, hblt, halt,
    hbhigh 4 (by omega) (by omega), hbhigh 5 (by omega) (by omega),
    hbhigh 6 (by omega) (by omega), hbhigh 7 (by omega) (by omega),
    hahigh 4 (by omega) (by omega), hahigh 5 (by omega) (by omega),
    hahigh 6 (by omega) (by omega), hahigh 7 (by omega) (by omega)⟩

/-- C5 counterexample: on an all-zero input image (magic and block size both
wrong) the adder fails with FormatMismatch but the process exit code is 2,
not 1 as the claim states. -/
theorem c5_cex :
    errKindOf (runAdder zeroMem 0 zeroMem [] 0) = some AddErr.formatMismatch
  ∧ exitCodeOf (runAdder zeroMem 0 zeroMem [] 0) = 2
  ∧ (exitCodeOf (runAdder zeroMem 0 zeroMem [] 0) != 1) = true := by
  refine ⟨by decide, by decide, by decide⟩

/-- C5 amended: the Entry Inserter first validates the loaded image (block
size 4096 and magic 0x4D565346); on a mismatch it fails with FormatMismatch,
leaves the buffer untouched, and the process exits with code 2. -/
theorem c5_amended (img : Nat → Nat) (fsz : Nat) (fbuf : Nat → Nat)
    (base : List Nat) (now : Nat)
    (h : readLE img 8 4 ≠ 4096 ∨ readLE img 0 4 ≠ 0x4D565346) :
    runAdder img fsz fbuf base now = Except.error (AddErr.formatMismatch, img)
  ∧ exitCodeOf (runAdder img fsz fbuf base now) = 2 := by
  have h1 : runAdder img fsz fbuf base now
      = Except.error (AddErr.formatMismatch, img) := by
    unfold runAdder
    rw [if_pos h]
  exact ⟨h1, by rw [h1]; rfl⟩

/-- C5 witness: the amended theorem applied to the all-zero image. -/
theorem c5_witness :
    runAdder zeroMem 0 zeroMem [] 1 = Except.error (AddErr.formatMismatch, zeroMem)
  ∧ exitCodeOf (runAdder zeroMem 0 zeroMem [] 1) = 2 :=
  c5_amended zeroMem 0 zeroMem [] 1 (by decide)

/-- C6 counterexample: the layout at size_kib = 180, inodes = 128 has
data_region_start = 3 + 4 = 7, not 4 as the claim states. -/
theorem c6_cex :
    (layoutOf 180 128).dataRegionStart = 7
  ∧ ((layoutOf 180 128).dataRegionStart != 4) = true := by
  refine ⟨by decide, by decide⟩

/-- The freshly built 180 KiB / 128-inode image of the C6 scenario. -/
def c6Img : Nat → Nat := buildImage 180 128 0 zeroMem

/-- The adder run of the C6 scenario: a 5000-byte file of letter A bytes,
inserted under the name "f". -/
def c6Res : AddResult := runAdder c6Img 5000 (fun t => if t < 5000 then 65 else 0) [102] 0

/-- C6 amended: initializing with size_kib = 180, inodes = 128 yields
total_blocks = 45, inode_table_blocks = 4 and data_region_start = 7 (not 4),
and the root inode uses the data block at data_region_start + 0 = 7; then
inserting a 5000-byte file requires exactly 2 blocks, consumes the next two
free data-bitmap bits in first-fit order (bits 1 and 2, so byte 0 of the data
bitmap goes from 1 to 7 and the new inode's direct pointers are blocks 8 and
9), and produces a root directory entry with type = file (1) and the file's
name ("f"). -/
theorem c6_amended :
    (layoutOf 180 128).totalBlocks = 45
  ∧ (layoutOf 180 128).inodeTableBlocks = 4
  ∧ (layoutOf 180 128).dataRegionStart = 7
  ∧ readLE c6Img 12332 4 = 7
  ∧ blocksNeededFor 5000 = 2
  ∧ errKindOf c6Res = none
  ∧ c6Img 8192 = 1
  ∧ bufOf c6Res 8192 = 7
  ∧ readLE (bufOf c6Res) (7 * 4096 + 128) 4 = 2
  ∧ bufOf c6Res (7 * 4096 + 132) = 1
  ∧ bufOf c6Res (7 * 4096 + 133) = 102
  ∧ bufOf c6Res (7 * 4096 + 134) = 0
  ∧ readLE (bufOf c6Res) (12288 + 128 + 12) 8 = 5000
  ∧ readLE (bufOf c6Res) (12288 + 128 + 44) 4 = 8
  ∧ readLE (bufOf c6Res) (12288 + 128 + 48) 4 = 9 := by
  refine ⟨by decide, by decide, by decide, by decide, by decide, by decide,
    by decide, by decide, by decide, by decide, by decide, by decide, by decide,
    by decide, by decide⟩

/-- The fresh image of the C1 scenario (builder output at mtime 0). -/
def c1Img0 : Nat → Nat := buildImage 180 128 0 zeroMem

/-- First C1 run: insert a one-byte file named "f"; succeeds. -/
def c1Run1 : AddResult := runAdder c1Img0 1 (fun _ => 7) [102] 0

/-- The image after the first insertion. -/
def c1Img1 : Nat → Nat := bufOf c1Run1

/-- Second C1 run: insert another one-byte file, also named "f". -/
def c1Run2 : AddResult := runAdder c1Img1 1 (fun _ => 9) [102] 0

/-- C1: inserting a duplicate name fails with AlreadyExists, but the buffer
is not left unmodified — the data-bitmap bit allocated in step 4 stays set.
Before the failing run byte 0 of the data bitmap is 3 (bits 0 and 1); at the
AlreadyExists exit it is 7, i.e. bit 2 was newly set and is visible on error,
contradicting the claim's no-partial-mutation requirement (the spec's design
notes call this ordering a latent bug of the source). -/
theorem c1_bug_eval :
    errKindOf c1Run1 = none
  ∧ errKindOf c1Run2 = some AddErr.alreadyExists
  ∧ exitCodeOf c1Run2 = 1
  ∧ c1Img1 8192 = 3
  ∧ bufOf c1Run2 8192 = 7 := by
  refine ⟨by decide, by decide, by decide, by decide, by decide⟩

/-- C8: the Layout Planner computes exactly the claimed block counts and
fixed positions, and the data region spans all remaining blocks up to
total_blocks.  (Purity and determinism are immediate: `layoutOf` is a
function of its two arguments.) -/
theorem c8_layout (s i : Nat) (h1 : 180 ≤ s) (h2 : s ≤ 4096) (h3 : s % 4 = 0)
    (h4 : 128 ≤ i) (h5 : i ≤ 512) :
    (layoutOf s i).totalBlocks = s * 1024 / 4096
  ∧ (layoutOf s i).inodeTableBlocks = (i * 128 + 4096 - 1) / 4096
  ∧ (layoutOf s i).inodeBitmapStart = 1
  ∧ (layoutOf s i).dataBitmapStart = 2
  ∧ (layoutOf s i).inodeTableStart = 3
  ∧ (layoutOf s i).dataRegionStart = 3 + (layoutOf s i).inodeTableBlocks
  ∧ (layoutOf s i).dataRegionStart + (layoutOf s i).dataRegionBlocks
      = (layoutOf s i).totalBlocks := by
  refine ⟨rfl, ?_, rfl, rfl, rfl, rfl, ?_⟩
  · rw [layoutOf_itb]
    omega
  · rw [layoutOf_drs, layoutOf_drb, layoutOf_totalBlocks]
    omega

/-- C8 witness: the layout equations at the smallest valid parameters. -/
theorem c8_witness :
    (layoutOf 180 128).totalBlocks = 180 * 1024 / 4096
  ∧ (layoutOf 180 128).inodeTableBlocks = (128 * 128 + 4096 - 1) / 4096
  ∧ (layoutOf 180 128).inodeBitmapStart = 1
  ∧ (layoutOf 180 128).dataBitmapStart = 2
  ∧ (layoutOf 180 128).inodeTableStart = 3
  ∧ (layoutOf 180 128).dataRegionStart = 3 + (layoutOf 180 128).inodeTableBlocks
  ∧ (layoutOf 180 128).dataRegionStart + (layoutOf 180 128).dataRegionBlocks
      = (layoutOf 180 128).totalBlocks :=
  c8_layout 180 128 (by decide) (by decide) (by decide) (by decide) (by decide)

/-- C10: for every parameter set the builder's input validation accepts,
total_blocks is at least 45, data_region_start is at most 19 and strictly
below total_blocks, so the "image too small" and "invalid layout" branches
are unreachable (`plannedLayout` always succeeds) and the data region is
non-empty. -/
theorem c10_layout_guards (s i : Nat) (h1 : 180 ≤ s) (h2 : s ≤ 4096)
    (h3 : s % 4 = 0) (h4 : 128 ≤ i) (h5 : i ≤ 512) :
    45 ≤ (layoutOf s i).totalBlocks
  ∧ (layoutOf s i).dataRegionStart ≤ 19
  ∧ (layoutOf s i).dataRegionStart < (layoutOf s i).totalBlocks
  ∧ 1 ≤ (layoutOf s i).dataRegionBlocks
  ∧ plannedLayout s i = some (layoutOf s i) := by
  have htot : 45 ≤ (layoutOf s i).totalBlocks := by
    rw [layoutOf_totalBlocks]
    omega
  have hdrs : (layoutOf s i).dataRegionStart ≤ 19 := by
    rw [layoutOf_drs]
    omega
  have hlt : (layoutOf s i).dataRegionStart < (layoutOf s i).totalBlocks := by omega
  refine ⟨htot, hdrs, hlt, ?_, ?_⟩
  · rw [layoutOf_drb]
    rw [layoutOf_totalBlocks] at htot
    rw [layoutOf_drs] at hdrs
    omega
  · unfold plannedLayout
    rw [if_neg (by rw [layoutOf_totalBlocks] at htot; omega), if_neg (by omega)]

/-- C10 witness: the guard bounds at the smallest valid parameters. -/
theorem c10_witness :
    45 ≤ (layoutOf 180 128).totalBlocks
  ∧ (layoutOf 180 128).dataRegionStart ≤ 19
  ∧ (layoutOf 180 128).dataRegionStart < (layoutOf 180 128).totalBlocks
  ∧ 1 ≤ (layoutOf 180 128).dataRegionBlocks
  ∧ plannedLayout 180 128 = some (layoutOf 180 128) :=
  c10_layout_guards 180 128 (by decide) (by decide) (by decide) (by decide) (by decide)

-- ======================= C9 helpers =======================

/-- Zeroing the inode checksum field after `inode_crc_finalize` gives the
same masked record as zeroing it before (the finalizer only writes the
field). -/
theorem maskInodeCrc_builderFinalize (m : Nat → Nat) :
    maskInodeCrc (builderInodeFinalize m) = maskInodeCrc m := by
  funext j
  unfold maskInodeCrc builderInodeFinalize
  by_cases h : 120 ≤ j ∧ j < 128
  · rw [if_pos h, if_pos h]
  · rw [if_neg h, if_neg h, if_neg h]

theorem maskInodeCrc_adderFinalize (m : Nat → Nat) :
    maskInodeCrc (adderInodeFinalize m) = maskInodeCrc m := by
  funext j
  unfold maskInodeCrc adderInodeFinalize
  by_cases h : 120 ≤ j ∧ j < 128
  · rw [if_pos h, if_pos h]
  · rw [if_neg h, if_neg h, if_neg h]

/-- The dirent checksum only reads bytes 0..62, which the finalizer leaves
unchanged. -/
theorem direntXorAt_finalize (m : Nat → Nat) :
    direntXorAt (direntFinalize m) 0 = direntXorAt m 0 := by
  unfold direntXorAt
  apply direntXorGo_congr
  intro j _ hj
  unfold direntFinalize
  rw [if_neg (by omega)]

/-- Reading the stored 64-bit inode checksum field back gives the builder's
CRC value. -/
theorem builderInodeFinalize_readBack (m : Nat → Nat) :
    readLE (builderInodeFinalize m) 120 8 = builderInodeCrcOf m := by
  apply readLE_eq
  · calc builderInodeCrcOf m < 2 ^ 32 := crc32fn_lt _ 0 120
      _ < 256 ^ 8 := by norm_num
  · intro k hk
    unfold builderInodeFinalize
    rw [if_pos (by omega)]
    congr 1
    omega

theorem adderInodeFinalize_readBack (m : Nat → Nat) :
    readLE (adderInodeFinalize m) 120 8 = adderInodeCrcOf m := by
  apply readLE_eq
  · calc adderInodeCrcOf m < 2 ^ 32 := crc32fn_lt _ 0 128
      _ < 256 ^ 8 := by norm_num
  · intro k hk
    unfold adderInodeFinalize
    rw [if_pos (by omega)]
    congr 1
    omega

/-- C9: for any inode record and any directory entry, zeroing the checksum
field of the finalized record and recomputing with the same routine
reproduces the stored checksum (round-trip), and every checksum-finalize
routine of either program is idempotent. -/
theorem c9_checksum_roundtrip (m : Nat → Nat) :
    direntXorAt (fun j => if j = 63 then 0 else direntFinalize m j) 0
      = direntFinalize m 63
  ∧ direntFinalize (direntFinalize m) = direntFinalize m
  ∧ crc32fn (maskInodeCrc (builderInodeFinalize m)) 0 120
      = readLE (builderInodeFinalize m) 120 8
  ∧ builderInodeFinalize (builderInodeFinalize m) = builderInodeFinalize m
  ∧ crc32fn (maskInodeCrc (adderInodeFinalize m)) 0 128
      = readLE (adderInodeFinalize m) 120 8
  ∧ adderInodeFinalize (adderInodeFinalize m) = adderInodeFinalize m := by
  have hdx : direntXorAt (fun j => if j = 63 then 0 else direntFinalize m j) 0
      = direntXorAt m 0 := by
    unfold direntXorAt
    apply direntXorGo_congr
    intro j _ hj
    rw [if_neg (by omega)]
    unfold direntFinalize
    rw [if_neg (by omega)]
  refine ⟨?_, ?_, ?_, ?_, ?_, ?_⟩
  · rw [hdx]
    show direntXorAt m 0 = direntFinalize m 63
    unfold direntFinalize
    rw [if_pos rfl]
  · funext j
    show direntFinalize (direntFinalize m) j = direntFinalize m j
    unfold direntFinalize
    by_cases h : j = 63
    · rw [if_pos h, if_pos h]
      exact direntXorAt_finalize m
    · rw [if_neg h, if_neg h]
  · rw [maskInodeCrc_builderFinalize, builderInodeFinalize_readBack]
    rfl
  · funext j
    show builderInodeFinalize (builderInodeFinalize m) j = builderInodeFinalize m j
    have hcrc : builderInodeCrcOf (builderInodeFinalize m) = builderInodeCrcOf m := by
      unfold builderInodeCrcOf
      rw [maskInodeCrc_builderFinalize]
    by_cases h : 120 ≤ j ∧ j < 128
    · show (if 120 ≤ j ∧ j < 128 then
          leByte (builderInodeCrcOf (builderInodeFinalize m)) (j - 120)
        else builderInodeFinalize m j) = builderInodeFinalize m j
      rw [if_pos h, hcrc]
      unfold builderInodeFinalize
      rw [if_pos h]
    · show (if 120 ≤ j ∧ j < 128 then
          leByte (builderInodeCrcOf (builderInodeFinalize m)) (j - 120)
        else builderInodeFinalize m j) = builderInodeFinalize m j
      rw [if_neg h]
  · rw [maskInodeCrc_adderFinalize, adderInodeFinalize_readBack]
    rfl
  · funext j
    show adderInodeFinalize (adderInodeFinalize m) j = adderInodeFinalize m j
    have hcrc : adderInodeCrcOf (adderInodeFinalize m) = adderInodeCrcOf m := by
      unfold adderInodeCrcOf
      rw [maskInodeCrc_adderFinalize]
    by_cases h : 120 ≤ j ∧ j < 128
    · show (if 120 ≤ j ∧ j < 128 then
          leByte (adderInodeCrcOf (adderInodeFinalize m)) (j - 120)
        else adderInodeFinalize m j) = adderInodeFinalize m j
      rw [if_pos h, hcrc]
      unfold adderInodeFinalize
      rw [if_pos h]
    · show (if 120 ≤ j ∧ j < 128 then
          leByte (adderInodeCrcOf (adderInodeFinalize m)) (j - 120)
        else adderInodeFinalize m j) = adderInodeFinalize m j
      rw [if_neg h]

-- ======================= C7 =======================

/-- C7: the Entry Inserter rejects a file with FileTooLarge exactly for
sizes above 12 blocks.  Part one: whenever a run fails with FileTooLarge the
file was larger than 12*4096 = 49152 bytes (so no file of at most 49152
bytes is ever rejected by this check); moreover the error carries the input
buffer unchanged.  Part two: on a valid image with a free inode, any larger
file does fail with FileTooLarge, and the image buffer at that exit is
byte-for-byte the input buffer (the error value carries `img` itself). -/
theorem c7_file_too_large (img : Nat → Nat) (fsz : Nat) (fbuf : Nat → Nat)
    (base : List Nat) (now : Nat) :
    (∀ m, runAdder img fsz fbuf base now = Except.error (AddErr.fileTooLarge, m) →
      49152 < fsz ∧ m = img)
  ∧ (readLE img 8 4 = 4096 → readLE img 0 4 = 0x4D565346 →
     ∀ k, bitmapFfz img (readLE img 28 8 * 4096) (readLE img 20 8) = some k →
     49152 < fsz →
     runAdder img fsz fbuf base now = Except.error (AddErr.fileTooLarge, img)) := by
  constructor
  · intro m h
    unfold runAdder at h
    by_cases hfmt : readLE img 8 4 ≠ 4096 ∨ readLE img 0 4 ≠ 0x4D565346
    · rw [if_pos hfmt] at h
      exact absurd h (by simp)
    · rw [if_neg hfmt] at h
      split at h
      · exact absurd h (by simp)
      · split at h
        · exact absurd h (by simp)
        · split at h
          · rename_i hbn
            unfold blocksNeededFor at hbn
            refine ⟨by omega, ?_⟩
            simp only [Except.error.injEq, Prod.mk.injEq] at h
            exact h.2.symm
          · split at h
            · exact absurd h (by simp)
            · split at h
              · exact absurd h (by simp)
              · split at h
                · exact absurd h (by simp)
                · exact absurd h (by simp)
                · exact absurd h (by simp)
  · intro hbs hm k hffz hlen
    unfold runAdder
    rw [if_neg (fun hc => hc.elim (fun ha => ha hbs) (fun hb => hb hm))]
    split
    · rename_i heq
      rw [hffz] at heq
      exact Option.noConfusion heq
    · rename_i freeIn heq
      rw [hffz] at heq
      have hk : k = freeIn := Option.some.inj heq
      clear heq
      split
      · rename_i hle
        exact absurd hle (by have := bitmapFfz_lt hffz; omega)
      · split
        · rfl
        · rename_i hbn
          exfalso
          unfold blocksNeededFor at hbn
          omega

/-- A minimal valid-looking image for the C7 witness: correct magic and
block size, one inode, inode bitmap at block 1 with its first bit free. -/
def tinyImg : Nat → Nat := fun j =>
  if j < 4 then leByte 0x4D565346 j
  else if 8 ≤ j ∧ j < 12 then leByte 4096 (j - 8)
  else if 20 ≤ j ∧ j < 28 then leByte 1 (j - 20)
  else if 28 ≤ j ∧ j < 36 then leByte 1 (j - 28)
  else 0

/-- C7 witness: a 49153-byte file on `tinyImg` fails with FileTooLarge and
the error carries the input buffer itself. -/
theorem c7_witness :
    runAdder tinyImg 49153 zeroMem [] 0
      = Except.error (AddErr.fileTooLarge, tinyImg) :=
  (c7_file_too_large tinyImg 49153 zeroMem [] 0).2
    (by decide) (by decide) 0 (by decide) (by norm_num)

-- ======================= C4: byte-level layout of the built image =======================

/-- Bytes 0..115 of the built image are the finalized superblock. -/
theorem buildImage_sb (s i now : Nat) (rest : Nat → Nat) (j : Nat) (hj : j < 116) :
    buildImage s i now rest j = sbByte (buildSb s i now rest) j := by
  simp only [buildImage, writeSeg, layoutOf_drs, layoutOf_drb]
  rw [if_neg (by omega), if_neg (by omega), if_neg (by omega), if_neg (by omega),
    if_pos (by omega)]
  simp

/-- Bytes 116..4095 of the built image (the superblock block's padding) are
zero. -/
theorem buildImage_sbpad (s i now : Nat) (rest : Nat → Nat) (j : Nat)
    (h1 : 116 ≤ j) (h2 : j < 4096) :
    buildImage s i now rest j = 0 := by
  simp only [buildImage, writeSeg, layoutOf_drs, layoutOf_drb]
  rw [if_neg (by omega), if_neg (by omega), if_neg (by omega), if_neg (by omega),
    if_neg (by omega)]
  rfl

/-- Block 1 of the built image is the inode bitmap: byte 0 is 1, the rest 0. -/
theorem buildImage_ibm (s i now : Nat) (rest : Nat → Nat) (t : Nat) (ht : t < 4096) :
    buildImage s i now rest (4096 + t) = if t = 0 then 1 else 0 := by
  simp only [buildImage, writeSeg, layoutOf_drs, layoutOf_drb]
  rw [if_neg (by omega), if_neg (by omega), if_neg (by omega), if_pos (by omega)]
  rw [show 4096 + t - 4096 = t from by omega]

/-- Block 2 of the built image is the data bitmap: byte 0 is 1, the rest 0. -/
theorem buildImage_dbm (s i now : Nat) (rest : Nat → Nat) (t : Nat) (ht : t < 4096) :
    buildImage s i now rest (8192 + t) = if t = 0 then 1 else 0 := by
  simp only [buildImage, writeSeg, layoutOf_drs, layoutOf_drb]
  rw [if_neg (by omega), if_neg (by omega), if_pos (by omega)]
  rw [show 8192 + t - 8192 = t from by omega]

/-- Bytes 0..127 of the inode table (at offset 12288) are the root inode. -/
theorem buildImage_root (s i now : Nat) (rest : Nat → Nat) (t : Nat)
    (ht : t < 128) (hi : 128 ≤ i) :
    buildImage s i now rest (12288 + t) = inodeByte (buildRoot s i now) t := by
  simp only [buildImage, writeSeg, layoutOf_drs, layoutOf_drb]
  rw [if_neg (by omega), if_pos (by omega)]
  rw [show 12288 + t - 12288 = t from by omega, if_pos ht]

/-- The rest of the inode table region (bytes 128 up to the padded end) is
zero. -/
theorem buildImage_itzero (s i now : Nat) (rest : Nat → Nat) (t : Nat)
    (h1 : 128 ≤ t) (h2 : t < (i * 128 + 4095) / 4096 * 4096) (_hi : 128 ≤ i) :
    buildImage s i now rest (12288 + t) = 0 := by
  by_cases hc : t < i * 128
  · simp only [buildImage, writeSeg, layoutOf_drs, layoutOf_drb]
    rw [if_neg (by omega), if_pos (by omega)]
    rw [show 12288 + t - 12288 = t from by omega, if_neg (by omega)]
  · simp only [buildImage, writeSeg, layoutOf_drs, layoutOf_drb]
    rw [if_neg (by omega), if_neg (by omega), if_neg (by omega), if_neg (by omega),
      if_neg (by omega)]
    rfl

/-- The data region: its first 64 bytes are the "." entry, the next 64 the
".." entry, everything else zero. -/
theorem buildImage_data (s i now : Nat) (rest : Nat → Nat) (t : Nat)
    (ht : t < (layoutOf s i).dataRegionBlocks * 4096) :
    buildImage s i now rest ((layoutOf s i).dataRegionStart * 4096 + t) =
      if t < 64 then direntByte dotRec t
      else if t < 128 then direntByte dotdotRec (t - 64)
      else 0 := by
  simp only [layoutOf_drs, layoutOf_drb] at ht ⊢
  simp only [buildImage, writeSeg, layoutOf_drs, layoutOf_drb]
  rw [if_pos (by omega)]
  rw [show (3 + (i * 128 + 4095) / 4096) * 4096 + t - (3 + (i * 128 + 4095) / 4096) * 4096
      = t from by omega]

-- ======================= C4: serializer dispatch lemmas =======================

theorem sbByte_ck (sb : Superblock) (j : Nat) (h1 : 112 ≤ j) (h2 : j < 116) :
    sbByte sb j = leByte sb.checksum (j - 112) := by
  interval_cases j <;> rfl

theorem sbByte_checksum_irrel (sb : Superblock) (c j : Nat) (h : j < 112) :
    sbByte { sb with checksum := c } j = sbByte sb j := by
  interval_cases j <;> rfl

theorem inodeByte_mode (x : InodeRec) (j : Nat) (h : j < 2) :
    inodeByte x j = leByte x.mode j := by
  interval_cases j <;> rfl

theorem inodeByte_links (x : InodeRec) (j : Nat) (h1 : 2 ≤ j) (h2 : j < 4) :
    inodeByte x j = leByte x.links (j - 2) := by
  interval_cases j <;> rfl

theorem inodeByte_size (x : InodeRec) (j : Nat) (h1 : 12 ≤ j) (h2 : j < 20) :
    inodeByte x j = leByte x.sizeBytes (j - 12) := by
  interval_cases j <;> rfl

theorem inodeByte_direct (x : InodeRec) (j : Nat) (h1 : 44 ≤ j) (h2 : j < 92) :
    inodeByte x j = leByte (x.direct ((j - 44) / 4)) ((j - 44) % 4) := by
  interval_cases j <;> rfl

theorem inodeByte_crc (x : InodeRec) (j : Nat) (h1 : 120 ≤ j) (h2 : j < 128) :
    inodeByte x j = leByte x.crc (j - 120) := by
  interval_cases j <;> rfl

theorem inodeByte_crc_irrel (x : InodeRec) (c j : Nat) (h : j < 120) :
    inodeByte { x with crc := c } j = inodeByte x j := by
  interval_cases j <;> rfl

theorem direntByte_ino (d : DirentRec) (j : Nat) (h : j < 4) :
    direntByte d j = leByte d.inodeNo j := by
  interval_cases j <;> rfl

theorem direntByte_typ (d : DirentRec) : direntByte d 4 = d.typ % 256 := by
  simp [direntByte]

theorem direntByte_name (d : DirentRec) (j : Nat) (h1 : 5 ≤ j) (h2 : j < 63) :
    direntByte d j = d.name (j - 5) % 256 := by
  interval_cases j <;> rfl

theorem direntByte_ck (d : DirentRec) : direntByte d 63 = d.checksum % 256 := by
  simp [direntByte]

theorem direntByte_ck_irrel (d : DirentRec) (c j : Nat) (h : j < 63) :
    direntByte { d with checksum := c } j = direntByte d j := by
  interval_cases j <;> rfl

-- ======================= C4 =======================

/-- Nonzero memory following the superblock struct on the stack: first byte
1, the rest 0. -/
def c4BadRest : Nat → Nat := fun t => if t = 0 then 1 else 0

/-- The image built at size_kib = 180, inodes = 128, mtime 0 when the 3976
bytes of stack memory after the 116-byte superblock struct are not all
zero. -/
def c4BadImg : Nat → Nat := buildImage 180 128 0 c4BadRest

/-- C4 counterexample: the builder's stored superblock checksum covers 3976
bytes of unspecified memory beyond the 116-byte struct (`crc32(sb, BS-4)` on
a 116-byte stack object), while the written image pads the block with
zeros.  With a single nonzero residue byte the stored checksum is 3646881961
but recomputing the same CRC over the stored bytes with the checksum field
zeroed gives 4132878825, so the image's superblock checksum does not
validate. -/
theorem c4_cex :
    readLE c4BadImg 112 4 = 3646881961
  ∧ builderSbCrcOf c4BadImg = 4132878825
  ∧ (builderSbCrcOf c4BadImg != readLE c4BadImg 112 4) = true := by
  refine ⟨by decide, by decide, by decide⟩

/-- The C4 property of a freshly built image (with zero stack residue after
the superblock struct): correct total size; superblock checksum validates
under the builder's own convention; inode bitmap and data bitmap have only
bit 0 set; the first inode-table entry is the root directory inode
(mode 0040000, 2 links, size 128, direct[0] = data_region_start, remaining
direct pointers 0, checksum = CRC-32 of its first 120 bytes with zero upper
32 bits) and the rest of the inode table is zero; the first data block holds
exactly the "." and ".." entries (inode 1, type 2, checksummed) and the rest
of the data region is zero. -/
def c4Prop (s i now : Nat) : Prop :=
    buildSize s i = s * 1024
  ∧ builderSbCrcOf (buildImage s i now zeroMem) = readLE (buildImage s i now zeroMem) 112 4
  ∧ buildImage s i now zeroMem 4096 = 1
  ∧ (∀ t, 1 ≤ t → t < 4096 → buildImage s i now zeroMem (4096 + t) = 0)
  ∧ buildImage s i now zeroMem 8192 = 1
  ∧ (∀ t, 1 ≤ t → t < 4096 → buildImage s i now zeroMem (8192 + t) = 0)
  ∧ readLE (buildImage s i now zeroMem) 12288 2 = 16384
  ∧ readLE (buildImage s i now zeroMem) 12290 2 = 2
  ∧ readLE (buildImage s i now zeroMem) 12300 8 = 128
  ∧ readLE (buildImage s i now zeroMem) 12332 4 = (layoutOf s i).dataRegionStart
  ∧ (∀ k, 1 ≤ k → k < 12 → readLE (buildImage s i now zeroMem) (12332 + 4 * k) 4 = 0)
  ∧ readLE (buildImage s i now zeroMem) 12408 8
      = crc32fn (buildImage s i now zeroMem) 12288 120
  ∧ readLE (buildImage s i now zeroMem) 12408 8 < 2 ^ 32
  ∧ (∀ t, 128 ≤ t → t < (layoutOf s i).inodeTableBlocks * 4096 →
      buildImage s i now zeroMem (12288 + t) = 0)
  ∧ readLE (buildImage s i now zeroMem) ((layoutOf s i).dataRegionStart * 4096) 4 = 1
  ∧ buildImage s i now zeroMem ((layoutOf s i).dataRegionStart * 4096 + 4) = 2
  ∧ buildImage s i now zeroMem ((layoutOf s i).dataRegionStart * 4096 + 5) = 46
  ∧ (∀ k, 6 ≤ k → k < 63 →
      buildImage s i now zeroMem ((layoutOf s i).dataRegionStart * 4096 + k) = 0)
  ∧ buildImage s i now zeroMem ((layoutOf s i).dataRegionStart * 4096 + 63)
      = direntXorAt (buildImage s i now zeroMem) ((layoutOf s i).dataRegionStart * 4096)
  ∧ readLE (buildImage s i now zeroMem) ((layoutOf s i).dataRegionStart * 4096 + 64) 4 = 1
  ∧ buildImage s i now zeroMem ((layoutOf s i).dataRegionStart * 4096 + 68) = 2
  ∧ buildImage s i now zeroMem ((layoutOf s i).dataRegionStart * 4096 + 69) = 46
  ∧ buildImage s i now zeroMem ((layoutOf s i).dataRegionStart * 4096 + 70) = 46
  ∧ (∀ k, 71 ≤ k → k < 127 →
      buildImage s i now zeroMem ((layoutOf s i).dataRegionStart * 4096 + k) = 0)
  ∧ buildImage s i now zeroMem ((layoutOf s i).dataRegionStart * 4096 + 127)
      = direntXorAt (buildImage s i now zeroMem) ((layoutOf s i).dataRegionStart * 4096 + 64)
  ∧ (∀ t, 128 ≤ t → t < (layoutOf s i).dataRegionBlocks * 4096 →
      buildImage s i now zeroMem ((layoutOf s i).dataRegionStart * 4096 + t) = 0)

/-- C4 amended: for all valid parameters, initialization produces an image
with all the claimed contents, and the superblock checksum validates
provided the 3976 bytes of memory the builder's checksum routine reads
beyond the 116-byte struct are zero (the unamended claim fails because the
stored checksum covers that unspecified trailing memory, see `c4_cex`). -/
theorem c4_amended (s i now : Nat) (h1 : 180 ≤ s) (h2 : s ≤ 4096) (h3 : s % 4 = 0)
    (h4 : 128 ≤ i) (h5 : i ≤ 512) : c4Prop s i now := by
  have hq1 : 4 ≤ (i * 128 + 4095) / 4096 := by omega
  have hq2 : (i * 128 + 4095) / 4096 ≤ 16 := by omega
  have htot : 45 ≤ s * 1024 / 4096 := by omega
  have hdrbP : 26 ≤ (layoutOf s i).dataRegionBlocks := by rw [layoutOf_drb]; omega
  have hdrsP : (layoutOf s i).dataRegionStart ≤ 19 := by rw [layoutOf_drs]; omega
  have hdot : ∀ t, t < 64 →
      buildImage s i now zeroMem ((layoutOf s i).dataRegionStart * 4096 + t)
        = direntByte dotRec t := by
    intro t ht
    rw [buildImage_data s i now zeroMem t (by omega)]
    rw [if_pos ht]
  have hdd : ∀ t, t < 64 →
      buildImage s i now zeroMem ((layoutOf s i).dataRegionStart * 4096 + (64 + t))
        = direntByte dotdotRec t := by
    intro t ht
    rw [buildImage_data s i now zeroMem (64 + t) (by omega)]
    rw [if_neg (by omega), if_pos (by omega)]
    rw [show 64 + t - 64 = t from by omega]
  have hdotX : direntXorAt (buildImage s i now zeroMem)
      ((layoutOf s i).dataRegionStart * 4096) = direntXorAt (direntByte dotRec0) 0 := by
    have hs := @direntXorGo_shift (buildImage s i now zeroMem)
      ((layoutOf s i).dataRegionStart * 4096) 63 0 0
    rw [Nat.add_zero] at hs
    unfold direntXorAt
    rw [← hs]
    apply direntXorGo_congr
    intro t _ ht
    rw [hdot t (by omega)]
    exact direntByte_ck_irrel dotRec0 (direntXorAt (direntByte dotRec0) 0) t (by omega)
  have hddX : direntXorAt (buildImage s i now zeroMem)
      ((layoutOf s i).dataRegionStart * 4096 + 64) = direntXorAt (direntByte dotdotRec0) 0 := by
    have hs := @direntXorGo_shift (buildImage s i now zeroMem)
      ((layoutOf s i).dataRegionStart * 4096 + 64) 63 0 0
    rw [Nat.add_zero] at hs
    unfold direntXorAt
    rw [← hs]
    apply direntXorGo_congr
    intro t _ ht
    rw [show (layoutOf s i).dataRegionStart * 4096 + 64 + t
        = (layoutOf s i).dataRegionStart * 4096 + (64 + t) from by omega]
    rw [hdd t (by omega)]
    exact direntByte_ck_irrel dotdotRec0 (direntXorAt (direntByte dotdotRec0) 0) t (by omega)
  have hsbrd : readLE (buildImage s i now zeroMem) 112 4 = buildSbCk s i now zeroMem := by
    apply readLE_eq
    · have h256 : (256:Nat) ^ 4 = 2 ^ 32 := by norm_num
      rw [h256]
      unfold buildSbCk
      exact crc32fn_lt _ _ _
    · intro k hk
      rw [buildImage_sb s i now zeroMem (112 + k) (by omega)]
      rw [sbByte_ck _ _ (by omega) (by omega)]
      rw [show 112 + k - 112 = k from by omega]
      rfl
  have hsbck : builderSbCrcOf (buildImage s i now zeroMem) = buildSbCk s i now zeroMem := by
    unfold builderSbCrcOf buildSbCk
    apply crc32fn_congr
    intro j _ hj
    by_cases hj116 : j < 116
    · by_cases hj112 : 112 ≤ j
      · unfold maskSbCk
        rw [if_pos (by omega : 112 ≤ j ∧ j < 116)]
        rw [if_pos hj116]
        rw [sbByte_ck _ _ hj112 (by omega)]
        show (0:Nat) = leByte 0 (j - 112)
        unfold leByte
        simp
      · unfold maskSbCk
        rw [if_neg (by omega)]
        rw [buildImage_sb s i now zeroMem j (by omega)]
        rw [if_pos hj116]
        exact sbByte_checksum_irrel (buildSb0 s i now) (buildSbCk s i now zeroMem) j (by omega)
    · unfold maskSbCk
      rw [if_neg (by omega)]
      rw [buildImage_sbpad s i now zeroMem j (by omega) (by omega)]
      rw [if_neg hj116]
      rfl
  have hcrclt : builderInodeCrcOf (inodeByte (buildRoot0 s i now)) < 2 ^ 32 :=
    crc32fn_lt _ _ _
  have hread12408 : readLE (buildImage s i now zeroMem) 12408 8
      = builderInodeCrcOf (inodeByte (buildRoot0 s i now)) := by
    apply readLE_eq
    · have h256 : (256:Nat) ^ 8 = 2 ^ 64 := by norm_num
      have h64 : (2:Nat) ^ 32 < 2 ^ 64 := by norm_num
      omega
    · intro k hk
      rw [show 12408 + k = 12288 + (120 + k) from by omega]
      rw [buildImage_root s i now zeroMem (120 + k) (by omega) h4]
      rw [inodeByte_crc _ _ (by omega) (by omega)]
      rw [show 120 + k - 120 = k from by omega]
      rfl
  have hcrc12 : crc32fn (buildImage s i now zeroMem) 12288 120
      = builderInodeCrcOf (inodeByte (buildRoot0 s i now)) := by
    have hs := @crc32fn_shift (buildImage s i now zeroMem) 12288 0 120
    rw [Nat.add_zero] at hs
    rw [← hs]
    have hcongr : crc32fn (fun t => buildImage s i now zeroMem (12288 + t)) 0 120
        = crc32fn (maskInodeCrc (inodeByte (buildRoot0 s i now))) 0 120 := by
      apply crc32fn_congr
      intro t _ ht
      rw [buildImage_root s i now zeroMem t (by omega) h4]
      have hir : inodeByte (buildRoot s i now) t = inodeByte (buildRoot0 s i now) t :=
        inodeByte_crc_irrel (buildRoot0 s i now)
          (builderInodeCrcOf (inodeByte (buildRoot0 s i now))) t (by omega)
      rw [hir]
      unfold maskInodeCrc
      rw [if_neg (by omega)]
    rw [hcongr]
    rfl
  unfold c4Prop
  refine ⟨?_, ?_, ?_, ?_, ?_, ?_, ?_, ?_, ?_, ?_, ?_, ?_, ?_, ?_, ?_, ?_, ?_, ?_,
    ?_, ?_, ?_, ?_, ?_, ?_, ?_, ?_⟩
  · unfold buildSize
    rw [layoutOf_itb, layoutOf_drb]
    omega
  · rw [hsbck, hsbrd]
  · have h := buildImage_ibm s i now zeroMem 0 (by omega)
    simpa using h
  · intro t ht1 ht2
    rw [buildImage_ibm s i now zeroMem t ht2, if_neg (by omega)]
  · have h := buildImage_dbm s i now zeroMem 0 (by omega)
    simpa using h
  · intro t ht1 ht2
    rw [buildImage_dbm s i now zeroMem t ht2, if_neg (by omega)]
  · apply readLE_eq
    · norm_num
    · intro k hk
      rw [buildImage_root s i now zeroMem k (by omega) h4]
      rw [inodeByte_mode _ _ (by omega)]
      rfl
  · apply readLE_eq
    · norm_num
    · intro k hk
      rw [show 12290 + k = 12288 + (2 + k) from by omega]
      rw [buildImage_root s i now zeroMem (2 + k) (by omega) h4]
      rw [inodeByte_links _ _ (by omega) (by omega)]
      rw [show 2 + k - 2 = k from by omega]
      rfl
  · apply readLE_eq
    · norm_num
    · intro k hk
      rw [show 12300 + k = 12288 + (12 + k) from by omega]
      rw [buildImage_root s i now zeroMem (12 + k) (by omega) h4]
      rw [inodeByte_size _ _ (by omega) (by omega)]
      rw [show 12 + k - 12 = k from by omega]
      rfl
  · apply readLE_eq
    · have h256 : (256:Nat) ^ 4 = 2 ^ 32 := by norm_num
      rw [h256]
      have : (2:Nat) ^ 32 = 4294967296 := by norm_num
      omega
    · intro k hk
      rw [show 12332 + k = 12288 + (44 + k) from by omega]
      rw [buildImage_root s i now zeroMem (44 + k) (by omega) h4]
      rw [inodeByte_direct _ _ (by omega) (by omega)]
      rw [show 44 + k - 44 = k from by omega]
      rw [Nat.div_eq_of_lt (by omega : k < 4)]
      rw [Nat.mod_eq_of_lt (by omega : k < 4)]
      show leByte (if (0:Nat) = 0 then (layoutOf s i).dataRegionStart % 2 ^ 32 else 0) k
        = leByte (layoutOf s i).dataRegionStart k
      rw [if_pos rfl]
      have hlt32 : (layoutOf s i).dataRegionStart < 2 ^ 32 := by
        have h32 : (2:Nat) ^ 32 = 4294967296 := by norm_num
        omega
      rw [Nat.mod_eq_of_lt hlt32]
  · intro kp hk1 hk12
    apply readLE_eq
    · norm_num
    · intro kk hkk
      rw [show 12332 + 4 * kp + kk = 12288 + (44 + (4 * kp + kk)) from by omega]
      rw [buildImage_root s i now zeroMem (44 + (4 * kp + kk)) (by omega) h4]
      rw [inodeByte_direct _ _ (by omega) (by omega)]
      rw [show 44 + (4 * kp + kk) - 44 = 4 * kp + kk from by omega]
      rw [show (4 * kp + kk) / 4 = kp from by omega]
      rw [show (4 * kp + kk) % 4 = kk from by omega]
      show leByte (if kp = 0 then (layoutOf s i).dataRegionStart % 2 ^ 32 else 0) kk
        = leByte 0 kk
      rw [if_neg (by omega)]
  · rw [hread12408, hcrc12]
  · rw [hread12408]
    exact hcrclt
  · intro t ht1 ht2
    rw [layoutOf_itb] at ht2
    exact buildImage_itzero s i now zeroMem t ht1 ht2 h4
  · apply readLE_eq
    · norm_num
    · intro k hk
      rw [hdot k (by omega)]
      rw [direntByte_ino _ _ (by omega)]
      rfl
  · rw [hdot 4 (by omega)]
    rw [direntByte_typ]
    rfl
  · rw [hdot 5 (by omega)]
    rw [direntByte_name _ _ (by omega) (by omega)]
    rfl
  · intro k hk1 hk2
    rw [hdot k (by omega)]
    rw [direntByte_name _ _ (by omega) (by omega)]
    show (if k - 5 = 0 then 46 else 0) % 256 = 0
    rw [if_neg (by omega)]
  · rw [hdot 63 (by omega)]
    rw [direntByte_ck]
    rw [hdotX]
    show direntXorAt (direntByte dotRec0) 0 % 256 = direntXorAt (direntByte dotRec0) 0
    exact Nat.mod_eq_of_lt (direntXorAt_lt _ _)
  · apply readLE_eq
    · norm_num
    · intro k hk
      rw [show (layoutOf s i).dataRegionStart * 4096 + 64 + k
          = (layoutOf s i).dataRegionStart * 4096 + (64 + k) from by omega]
      rw [hdd k (by omega)]
      rw [direntByte_ino _ _ (by omega)]
      rfl
  · rw [show (layoutOf s i).dataRegionStart * 4096 + 68
      = (layoutOf s i).dataRegionStart * 4096 + (64 + 4) from by omega]
    rw [hdd 4 (by omega)]
    rw [direntByte_typ]
    rfl
  · rw [show (layoutOf s i).dataRegionStart * 4096 + 69
      = (layoutOf s i).dataRegionStart * 4096 + (64 + 5) from by omega]
    rw [hdd 5 (by omega)]
    rw [direntByte_name _ _ (by omega) (by omega)]
    rfl
  · rw [show (layoutOf s i).dataRegionStart * 4096 + 70
      = (layoutOf s i).dataRegionStart * 4096 + (64 + 6) from by omega]
    rw [hdd 6 (by omega)]
    rw [direntByte_name _ _ (by omega) (by omega)]
    rfl
  · intro k hk1 hk2
    rw [show (layoutOf s i).dataRegionStart * 4096 + k
      = (layoutOf s i).dataRegionStart * 4096 + (64 + (k - 64)) from by omega]
    rw [hdd (k - 64) (by omega)]
    rw [direntByte_name _ _ (by omega) (by omega)]
    show (if k - 64 - 5 < 2 then 46 else 0) % 256 = 0
    rw [if_neg (by omega)]
  · rw [show (layoutOf s i).dataRegionStart * 4096 + 127
      = (layoutOf s i).dataRegionStart * 4096 + (64 + 63) from by omega]
    rw [hdd 63 (by omega)]
    rw [direntByte_ck]
    rw [hddX]
    show direntXorAt (direntByte dotdotRec0) 0 % 256 = direntXorAt (direntByte dotdotRec0) 0
    exact Nat.mod_eq_of_lt (direntXorAt_lt _ _)
  · intro t ht1 ht2
    rw [buildImage_data s i now zeroMem t ht2]
    rw [if_neg (by omega), if_neg (by omega)]

/-- C4 witness: the amended property at the smallest valid parameters. -/
theorem c4_witness : c4Prop 180 128 0 :=
  c4_amended 180 128 0 (by decide) (by decide) (by decide) (by decide) (by decide)
